import Mathlib

/-!
Verification of the snowScatt scattering-properties interface
(`_compute.py`) and fall-speed model library (`_fallSpeedModels.py`).

External numerical dependencies (the SSRGA scattering kernel, the snow
property database, the ice refractive-index model) are modelled as
abstract function parameters gathered in an `Externals` structure; the
physical-constants table (`snowScatt._constants`) is not part of the
sources and is modelled from the spec.
-/

open Real

noncomputable section

namespace SnowScatt

/-- Modelled from the spec: speed of light from the physical-constants table
(`snowScatt._constants._c`, not among the sources). -/
def cLight : ℝ := 299792458.0

/-- Modelled from the spec: ice density from the physical-constants table
(`snowScatt._constants._ice_density`, not among the sources). -/
def iceDensity : ℝ := 917.0

/-- Modelled from the spec: standard gravitational acceleration from the
physical-constants table (`snowScatt._constants._g`, not among the sources). -/
def gAccel : ℝ := 9.80665

/-- Modelled from the spec: standard air density
(`snowScatt._constants._rho0`, not among the sources); the spec gives the
value 1.2038631624242195 kg/m^3. -/
def rho0Const : ℝ := 1.2038631624242195

/-- Modelled from the spec: standard kinematic viscosity of air
(`snowScatt._constants._nu0`, not among the sources; the spec names it but
gives no value, so a standard positive value is used). -/
def nu0Const : ℝ := 1.5e-5

/-- A scalar-or-array input, as accepted by the numpy based interface. -/
inductive NpInput (α : Type) where
  | scalar (c : α)
  | array (l : List α)

/-- `_convert_to_array`: a scalar becomes a 1-element array, an array is
kept as is. -/
def convert_to_array {α : Type} : NpInput α → List α
  | .scalar c => [c]
  | .array l => l

/-- Models `x * np.ones_like(diameters)`: a scalar is broadcast to length
`n`, a length-1 array is broadcast to length `n`, any other array is
multiplied elementwise by ones (hence unchanged). -/
def broadcastTo {α : Type} : NpInput α → Nat → List α
  | .scalar c, n => List.replicate n c
  | .array [x], n => List.replicate n x
  | .array l, _ => l

/-- `_compute_effective_size`: effective size of a spheroid of horizontal
size `size` and aspect ratio `ar` along the propagation direction `angle`. -/
def compute_effective_size (size ar angle : ℝ) : ℝ :=
  size / Real.sqrt (Real.sin angle ^ 2 + (Real.cos angle / ar) ^ 2)

/-- The 9-tuple returned by the external snow property database
`snowLibrary(diameters, properties)`, in its positional order.  The code
unpacks it as `kappa, beta, gamma, zeta1, alpha_eff, ar_mono, mass, vel,
area` (components 1..9). -/
abbrev SnowTuple :=
  List ℝ × List ℝ × List ℝ × List ℝ × List ℝ × List ℝ × List ℝ × List ℝ × List ℝ

/-- Output bundle of the external full SSRGA kernel `ssrga`. -/
structure ScatterBundle where
  Cext : List ℝ
  Cabs : List ℝ
  Csca : List ℝ
  Cbck : List ℝ
  asym : List ℝ
  phase : List (List ℝ)

/-- The external dependencies of `_compute.py`: the snow property database,
the ice refractive-index model, and the SSRGA scattering kernel (full solve,
backscatter-only solve, hexagonal-prism polarizability). -/
structure Externals where
  snowLibrary : List ℝ → String → SnowTuple
  iceN : List ℝ → List ℝ → List ℂ
  hexPrismK : List ℂ → List ℝ → List ℂ
  ssrga : List ℝ → List ℝ → List ℝ → List ℂ → List ℝ → List ℝ → List ℝ → List ℝ →
      Nat → ScatterBundle
  ssrgaBack : List ℝ → List ℝ → List ℝ → List ℂ → List ℝ → List ℝ → List ℝ →
      List ℝ → List ℝ

/-- The single explicit validation error of the system. -/
inductive SnowError where
  | missingConfiguration (msg : String)
deriving DecidableEq

/-- The message of the AttributeError raised by `_prepare_input`. -/
def prepErrMsg : String :=
  "You have to either specify directly the refractive index or provide the temperature so that refractive index will be calculated according to Iwabuchi 2011 model\n"

/-- The 11-tuple returned by `_prepare_input`, with fields named after the
variables of its `return` statement (in order). -/
structure PrepResult where
  Deff : List ℝ
  Vol : List ℝ
  wavelength : List ℝ
  K : List ℂ
  kappa : List ℝ
  gamma : List ℝ
  beta : List ℝ
  zeta1 : List ℝ
  mass_prop : List ℝ
  vel : List ℝ
  area : List ℝ

/-- `_prepare_input`: normalizes the inputs of the scattering operations.
Mirrors the source line by line: the diameters are coerced to an array, the
wavelength is broadcast, the refractive index is resolved (raising when
neither it nor the temperature is given), the snow library is queried (its
tuple is unpacked as `kappa, beta, gamma, zeta1, alpha_eff, ar_mono,
mass_prop, vel, area`), the mass defaults to the library mass, the volume is
`mass / _ice_density`, and the returned tuple is
`Deff, Vol, wavelength, K, kappa, gamma, beta, zeta1, mass_prop, vel, area`. -/
def prepare_input (E : Externals) (diameters : NpInput ℝ) (wavelength : NpInput ℝ)
    (properties : String) (ref_index : Option (NpInput ℂ))
    (temperature : Option (NpInput ℝ)) (mass : Option (NpInput ℝ)) (theta : ℝ) :
    Except SnowError PrepResult :=
  let ds := convert_to_array diameters
  let wl := broadcastTo wavelength ds.length
  let riE : Except SnowError (List ℂ) :=
    match ref_index with
    | none =>
      match temperature with
      | none => .error (.missingConfiguration prepErrMsg)
      | some t =>
        .ok (E.iceN (broadcastTo t ds.length) (wl.map (fun w => cLight / w)))
    | some ri => .ok (broadcastTo ri ds.length)
  riE.map fun ri =>
    let L := E.snowLibrary ds properties
    let kappa := L.1
    let beta := L.2.1
    let gamma := L.2.2.1
    let zeta1 := L.2.2.2.1
    let alpha_eff := L.2.2.2.2.1
    let ar_mono := L.2.2.2.2.2.1
    let mass_prop := L.2.2.2.2.2.2.1
    let vel := L.2.2.2.2.2.2.2.1
    let area := L.2.2.2.2.2.2.2.2
    let m : List ℝ :=
      match mass with
      | none => mass_prop
      | some mm => broadcastTo mm ds.length
    let Vol := m.map (fun x => x / iceDensity)
    let K := E.hexPrismK ri ar_mono
    let Deff := List.zipWith (fun s a => compute_effective_size s a theta) ds alpha_eff
    ⟨Deff, Vol, wl, K, kappa, gamma, beta, zeta1, mass_prop, vel, area⟩

/-- The 9-tuple returned by `calcProperties`, fields named after its
`return` statement. -/
structure CalcResult where
  Cext : List ℝ
  Cabs : List ℝ
  Csca : List ℝ
  Cbck : List ℝ
  asym : List ℝ
  phase : List (List ℝ)
  mass_prop : List ℝ
  vel : List ℝ
  area : List ℝ

/-- `calcProperties`: full scattering properties.  Runs `_prepare_input`,
invokes the full SSRGA kernel, and returns the cross sections together with
the library mass, velocity and area. -/
def calcProperties (E : Externals) (diameters wavelength : NpInput ℝ)
    (properties : String) (ref_index : Option (NpInput ℂ))
    (temperature : Option (NpInput ℝ)) (mass : Option (NpInput ℝ)) (theta : ℝ)
    (Nangles : Nat) : Except SnowError CalcResult :=
  (prepare_input E diameters wavelength properties ref_index temperature mass
    theta).map fun p =>
      let r := E.ssrga p.Deff p.Vol p.wavelength p.K p.kappa p.gamma p.beta
        p.zeta1 Nangles
      ⟨r.Cext, r.Cabs, r.Csca, r.Cbck, r.asym, r.phase, p.mass_prop, p.vel, p.area⟩

/-- `backscatter`: fast backscatter-only computation.  Runs `_prepare_input`
and invokes the backscatter-specialized kernel. -/
def backscatter (E : Externals) (diameters wavelength : NpInput ℝ)
    (properties : String) (ref_index : Option (NpInput ℂ))
    (temperature : Option (NpInput ℝ)) (mass : Option (NpInput ℝ)) (theta : ℝ) :
    Except SnowError (List ℝ) :=
  (prepare_input E diameters wavelength properties ref_index temperature mass
    theta).map fun p =>
      E.ssrgaBack p.Deff p.Vol p.wavelength p.K p.kappa p.gamma p.beta p.zeta1

/-- `backscatVel`: backscatter plus the library terminal velocity. -/
def backscatVel (E : Externals) (diameters wavelength : NpInput ℝ)
    (properties : String) (ref_index : Option (NpInput ℂ))
    (temperature : Option (NpInput ℝ)) (mass : Option (NpInput ℝ)) (theta : ℝ) :
    Except SnowError (List ℝ × List ℝ) :=
  (prepare_input E diameters wavelength properties ref_index temperature mass
    theta).map fun p =>
      (E.ssrgaBack p.Deff p.Vol p.wavelength p.K p.kappa p.gamma p.beta p.zeta1,
        p.vel)

/-- `snowMassVelocityArea`: mass/velocity/area lookup (components 7, 8, 9 of
the snow library tuple). -/
def snowMassVelocityArea (E : Externals) (diameters : NpInput ℝ)
    (properties : String) : List ℝ × List ℝ × List ℝ :=
  let ds := convert_to_array diameters
  let L := E.snowLibrary ds properties
  (L.2.2.2.2.2.2.1, L.2.2.2.2.2.2.2.1, L.2.2.2.2.2.2.2.2)

/-! ### Fall-speed model library (`fallSpeed/_fallSpeedModels.py`)

The source functions are elementwise vectorized maps over equal-length
arrays; each is embedded as a scalar core (the formula applied at one
index) together with a `List` version zipping the cores over the arrays.
Python float powers `x**e` are embedded as real powers `x ^ (e : ℝ)`,
`np.sqrt` as `Real.sqrt`, `np.log10` as `Real.logb 10`. -/

/-- Elementwise map over three lists (the vectorized application of a
ternary numpy formula). -/
def zipWith3R (f : ℝ → ℝ → ℝ → ℝ) : List ℝ → List ℝ → List ℝ → List ℝ
  | a :: as_, b :: bs, c :: cs => f a b c :: zipWith3R f as_ bs cs
  | _, _, _ => []

/-- `correctionFooteduToit`: Foote & Du Toit (1969) air-density/temperature
correction of a velocity vector. -/
def correctionFooteduToit (vel : List ℝ) (rho_air temperature : ℝ)
    (rho0 : ℝ) (T0 : ℝ) : List ℝ :=
  let log_density_scale := Real.logb 10 (rho0 / rho_air)
  let Y := 0.43 * log_density_scale - 0.4 * log_density_scale ^ (2.5 : ℝ)
  vel.map fun v =>
    v * (10.0 : ℝ) ^ Y * (1.0 + (0.0023 * (1.1 - (rho_air / rho0)) * (T0 - temperature)))

/-- Scalar core of `Boehm1992` (one particle), mirroring the source with the
second assignment to `C_DP` renamed `C_DP2`. -/
def Boehm1992core (diam mass area rho_air nu_air as_ratio : ℝ) : ℝ :=
  let q := area / (Real.pi / 4.0 * diam ^ 2)
  let eta_air := nu_air * rho_air
  let alpha := as_ratio
  let X_0 : ℝ := 2.8e6
  let X := 8.0 * mass * gAccel * rho_air /
    (Real.pi * eta_air ^ 2 * max alpha 1.0 * max (q ^ (0.25 : ℝ)) q)
  let k : ℝ := 1.0
  let gama_big :=
    max 1.0 (min 1.98 (3.76 - 8.41 * alpha + 9.18 * alpha ^ 2 - 3.53 * alpha ^ 3))
  let C_DP := max (0.292 * k * gama_big) (0.492 - 0.2 / Real.sqrt alpha)
  let C_DP2 := max 1.0 (q * (1.46 * q - 0.46)) * C_DP
  let C_DP_prim := C_DP2 * (1.0 + 1.6 * (X / X_0) ^ 2) / (1.0 + (X / X_0) ^ 2)
  let beta := Real.sqrt (1.0 + C_DP_prim / 6.0 / k * Real.sqrt (X / C_DP_prim)) - 1
  let N_Re0 := 6.0 * k / C_DP_prim * beta ^ 2
  let C_DO := 4.5 * k ^ 2 * max alpha 1.0
  let gama_small := (C_DO - C_DP2) / 4.0 / C_DP2
  let N_Re := N_Re0 *
    (1.0 + (2.0 * beta * Real.exp (-beta * gama_small)) / ((2.0 + beta) * (1.0 + beta)))
  N_Re * eta_air / diam / rho_air

/-- `Boehm1992`: Böhm (1992) terminal velocity, vectorized. -/
def Boehm1992 (diam mass area : List ℝ) (rho_air nu_air as_ratio : ℝ) : List ℝ :=
  zipWith3R (fun d m a => Boehm1992core d m a rho_air nu_air as_ratio) diam mass area

/-- Scalar core of `Boehm1989` (one particle). -/
def Boehm1989core (diam mass area rho_air nu_air : ℝ) : ℝ :=
  let q := area / (Real.pi / 4.0 * diam ^ 2)
  let eta_air := nu_air * rho_air
  let X := 8.0 * mass * gAccel * rho_air / (Real.pi * eta_air ^ 2 * q ^ (0.25 : ℝ))
  let Re := 8.5 * ((1.0 + 0.1519 * X ^ (0.5 : ℝ)) ^ (0.5 : ℝ) - 1.0) ^ 2
  Re * eta_air / diam / rho_air

/-- `Boehm1989`: Böhm (1989) terminal velocity, vectorized. -/
def Boehm1989 (diam mass area : List ℝ) (rho_air nu_air : ℝ) : List ℝ :=
  zipWith3R (fun d m a => Boehm1989core d m a rho_air nu_air) diam mass area

/-- Scalar core of `HeymsfieldWestbrook2010` (one particle). -/
def HeymsfieldWestbrook2010core (diaSpec mass area rho_air nu_air k : ℝ) : ℝ :=
  let delta_0 : ℝ := 8.0
  let C_0 : ℝ := 0.35
  let area_proj := area / ((Real.pi / 4.0) * diaSpec ^ 2)
  let eta := nu_air * rho_air
  let Xstar := 8.0 * rho_air * mass * gAccel /
    (Real.pi * area_proj ^ ((1.0 : ℝ) - k) * eta ^ 2)
  let Re := 0.25 * delta_0 ^ 2 *
    ((1.0 + ((4.0 * Xstar ^ (0.5 : ℝ)) / (delta_0 ^ (2.0 : ℝ) * C_0 ^ (0.5 : ℝ)))) ^
        (0.5 : ℝ) - 1) ^ 2
  eta * Re / (rho_air * diaSpec)

/-- `HeymsfieldWestbrook2010`: Heymsfield & Westbrook (2010) terminal
velocity, vectorized. -/
def HeymsfieldWestbrook2010 (diaSpec mass area : List ℝ)
    (rho_air nu_air k : ℝ) : List ℝ :=
  zipWith3R (fun d m a => HeymsfieldWestbrook2010core d m a rho_air nu_air k)
    diaSpec mass area

/-- `X2Cd_kc05rough` applied at one Best number. -/
def X2Cd_kc05roughCore (Xbest : ℝ) : ℝ :=
  let do_i : ℝ := 5.83
  let co_i : ℝ := 0.6
  let Ct : ℝ := 1.6
  let X0_i : ℝ := 0.35714285714285714285e-6
  let c1 := 4.0 / (do_i ^ 2 * Real.sqrt co_i)
  let c2 := 0.25 * do_i ^ 2
  let bracket := Real.sqrt (1.0 + c1 * Real.sqrt Xbest) - 1.0
  let psi := (1.0 + (Xbest * X0_i) ^ 2) / (1.0 + Ct * (Xbest * X0_i) ^ 2)
  let Re := c2 * bracket ^ 2
  co_i * (1.0 + do_i / Real.sqrt Re) ^ 2 / psi

/-- `X2Cd_kc05rough`: rough-surface drag coefficient, vectorized. -/
def X2Cd_kc05rough (Xbest : List ℝ) : List ℝ := Xbest.map X2Cd_kc05roughCore

/-- `X2Cd_kc05smooth` applied at one Best number. -/
def X2Cd_kc05smoothCore (Xbest : ℝ) : ℝ :=
  let do_i : ℝ := 9.06
  let co_i : ℝ := 0.292
  let Ct : ℝ := 1.6
  let X0_i : ℝ := 1.0 / 6.7e6
  let c1 := 4.0 / (do_i ^ 2 * Real.sqrt co_i)
  let c2 := 0.25 * do_i ^ 2
  let bracket := Real.sqrt (1.0 + c1 * Real.sqrt Xbest) - 1.0
  let psi := (1 + (Xbest * X0_i) ^ 2) / (1 + Ct * (Xbest * X0_i) ^ 2)
  let Re := c2 * bracket ^ 2
  co_i * (1.0 + do_i / Real.sqrt Re) ^ 2 / psi

/-- `X2Cd_kc05smooth`: smooth-surface drag coefficient, vectorized. -/
def X2Cd_kc05smooth (Xbest : List ℝ) : List ℝ := Xbest.map X2Cd_kc05smoothCore

/-- Scalar core of `KhvorostyanovCurry2005` (one particle). -/
def KhvorostyanovCurry2005core (diam mass area rho_air nu_air : ℝ)
    (smooth : Bool) : ℝ :=
  let Vb := mass / iceDensity
  let Fb := rho_air * Vb * gAccel
  let eta_air := nu_air * rho_air
  let Xbest := 2.0 * |mass * gAccel - Fb| * rho_air * diam ^ 2 / (area * eta_air ^ 2)
  let Cd := if smooth then X2Cd_kc05smoothCore Xbest else X2Cd_kc05roughCore Xbest
  Real.sqrt (2 * |mass * gAccel - Fb| / (rho_air * area * Cd))

/-- `KhvorostyanovCurry2005`: Khvorostyanov & Curry (2005) terminal
velocity, vectorized. -/
def KhvorostyanovCurry2005 (diam mass area : List ℝ)
    (rho_air nu_air : ℝ) (smooth : Bool) : List ℝ :=
  zipWith3R (fun d m a => KhvorostyanovCurry2005core d m a rho_air nu_air smooth)
    diam mass area

/-- The Böhm 1989 formula exactly as the spec words it (scalar form), for
the refinement claim: q = area/(π/4·diam²), eta = nu_air·rho_air,
X = 8·mass·g·rho_air/(π·eta²·q^0.25),
Re = 8.5·(sqrt(1+0.1519·sqrt(X)) − 1)², velocity = Re·eta/(diam·rho_air). -/
def Boehm1989specCore (diam mass area rho_air nu_air : ℝ) : ℝ :=
  let q := area / (Real.pi / 4 * diam ^ 2)
  let eta := nu_air * rho_air
  let X := 8 * mass * gAccel * rho_air / (Real.pi * eta ^ 2 * q ^ (0.25 : ℝ))
  let Re := 8.5 * (Real.sqrt (1 + 0.1519 * Real.sqrt X) - 1) ^ 2
  Re * eta / (diam * rho_air)

/-- The spec formula of Böhm 1989, vectorized. -/
def Boehm1989spec (diam mass area : List ℝ) (rho_air nu_air : ℝ) : List ℝ :=
  zipWith3R (fun d m a => Boehm1989specCore d m a rho_air nu_air) diam mass area

/-- A concrete external environment, used to evaluate the scattering
interface on concrete inputs: the property database returns a tuple with
distinct components, the full kernel echoes its first argument in every
cross section, and the backscatter kernel echoes its first argument. -/
def envTriv : Externals :=
  ⟨fun _ _ => ([1], [2], [3], [4], [1], [1], [5], [6], [7]),
   fun _ _ => [1],
   fun _ _ => [1],
   fun d _ _ _ _ _ _ _ _ => ⟨d, d, d, d, d, []⟩,
   fun d _ _ _ _ _ _ _ => d⟩

/-- The value of `_prepare_input` in the environment `envTriv` at diameters
`[1]`, wavelength `1`, refractive index `1`, mass `2`, theta `0`. -/
def prep0 : PrepResult :=
  ⟨[compute_effective_size 1 1 0], [2 / iceDensity], [1], [1],
    [1], [3], [2], [4], [5], [6], [7]⟩

/-- The value of `calcProperties` in the environment `envTriv` at the same
inputs as `prep0` (any angle count). -/
def calcRes0 : CalcResult :=
  ⟨[compute_effective_size 1 1 0], [compute_effective_size 1 1 0],
    [compute_effective_size 1 1 0], [compute_effective_size 1 1 0],
    [compute_effective_size 1 1 0], [], [5], [6], [7]⟩

/-! ### Analysis scaffolding for the Böhm 1992 model

`Boehm1992core` at the default aspect ratio 1 factors through a function
`b92NRe` of the Best number `X` alone (the constants `c` — the plate drag
coefficient `C_DP` after the area-ratio factor — and `γ` — `gama_small` —
depend only on the area ratio `q`, not on the mass).  The pieces below name
the intermediate quantities of the source formula. -/

/-- `(X/X_0)^2` with `X_0 = 2.8e6` (the squared normalized Best number). -/
def b92s (X : ℝ) : ℝ := (X / 2.8e6) ^ 2

/-- `C_DP_prim` as a function of the Best number: `c·(1+1.6s)/(1+s)`. -/
def b92C (c X : ℝ) : ℝ := c * (1 + 1.6 * b92s X) / (1 + b92s X)

/-- The product `X · C_DP_prim`. -/
def b92P (c X : ℝ) : ℝ := X * b92C c X

/-- `sqrt(X·C_DP_prim)/6`, the argument shift of `beta`. -/
def b92w (c X : ℝ) : ℝ := Real.sqrt (b92P c X) / 6

/-- `sqrt(1 + w)`, so that `beta = r − 1`. -/
def b92r (c X : ℝ) : ℝ := Real.sqrt (1 + b92w c X)

/-- `beta` of the source as a function of the Best number. -/
def b92beta (c X : ℝ) : ℝ := b92r c X - 1

/-- The denominator `(2+beta)(1+beta)`. -/
def b92D (c X : ℝ) : ℝ := (2 + b92beta c X) * (1 + b92beta c X)

/-- The exponential correction term `2·beta·exp(−beta·γ)/((2+beta)(1+beta))`. -/
def b92h (c γ X : ℝ) : ℝ :=
  2 * b92beta c X * Real.exp (-b92beta c X * γ) / b92D c X

/-- `N_Re` of the source as a function of the Best number:
`6·beta²/C_DP_prim · (1 + correction)`. -/
def b92NRe (c γ X : ℝ) : ℝ :=
  6 * b92beta c X ^ 2 / b92C c X * (1 + b92h c γ X)

/-- The logarithmic sensitivity `X·C'/C` of `C_DP_prim`:
`1.2·s/((1+s)(1+1.6s))`. -/
def b92delta (X : ℝ) : ℝ := 1.2 * b92s X / ((1 + b92s X) * (1 + 1.6 * b92s X))

/-- The derivative of the correction term with respect to `beta`:
`2·exp(−βγ)·((2−β²) − γ·β·D)/D²` with `D = (2+β)(1+β)`. -/
def b92Hb (γ β : ℝ) : ℝ :=
  2 * Real.exp (-β * γ) * ((2 - β ^ 2) - γ * β * ((2 + β) * (1 + β))) /
    ((2 + β) * (1 + β)) ^ 2

/-- The area ratio `q` of the fall-speed models. -/
def b92q (d a : ℝ) : ℝ := a / (Real.pi / 4 * d ^ 2)

/-- The constant `C_DP` (after the area-ratio factor) at aspect ratio 1. -/
def b92c (q : ℝ) : ℝ := max 1 (q * (1.46 * q - 0.46)) * 0.292

/-- `gama_small` at aspect ratio 1: `(4.5 − c)/4/c`. -/
def b92gam (c : ℝ) : ℝ := (4.5 - c) / 4 / c

/-- The Best number of `Boehm1992` at aspect ratio 1, as a function of the
mass. -/
def b92Xof (d m a ρ ν : ℝ) : ℝ :=
  8 * m * gAccel * ρ /
    (Real.pi * (ν * ρ) ^ 2 * max (b92q d a ^ (0.25 : ℝ)) (b92q d a))

/-- `x ** 0.5` is the square root. -/
theorem rpow_half (x : ℝ) : x ^ (0.5 : ℝ) = Real.sqrt x := by
  rw [Real.sqrt_eq_rpow]; norm_num

/-! ### Helper lemmas for the fall-speed positivity/monotonicity claims -/

theorem gAccel_pos : 0 < gAccel := by norm_num [gAccel]

theorem rho0Const_pos : 0 < rho0Const := by norm_num [rho0Const]

theorem nu0Const_pos : 0 < nu0Const := by norm_num [nu0Const]

theorem iceDensity_pos : 0 < iceDensity := by norm_num [iceDensity]

/-- `1 < sqrt (1 + t)` for positive `t`. -/
theorem one_lt_sqrt_one_add {t : ℝ} (ht : 0 < t) : 1 < Real.sqrt (1 + t) := by
  have h := Real.sqrt_lt_sqrt (by norm_num : (0:ℝ) ≤ 1) (by linarith : (1:ℝ) < 1 + t)
  rwa [Real.sqrt_one] at h

/-- The bracket `sqrt (1 + s) − 1` is strictly monotone. -/
theorem sqrt_bracket_mono {s t : ℝ} (hs : 0 ≤ s) (hst : s < t) :
    Real.sqrt (1 + s) - 1 < Real.sqrt (1 + t) - 1 := by
  have h := Real.sqrt_lt_sqrt (show (0:ℝ) ≤ 1 + s by linarith)
    (show (1:ℝ) + s < 1 + t by linarith)
  linarith

/-- The squared bracket is strictly monotone. -/
theorem bracket_sq_mono {s t : ℝ} (hs : 0 ≤ s) (hst : s < t) :
    (Real.sqrt (1 + s) - 1) ^ 2 < (Real.sqrt (1 + t) - 1) ^ 2 := by
  have h0 : 0 ≤ Real.sqrt (1 + s) - 1 := by
    have h1 : Real.sqrt 1 ≤ Real.sqrt (1 + s) := Real.sqrt_le_sqrt (by linarith)
    rw [Real.sqrt_one] at h1
    linarith
  exact pow_lt_pow_left (sqrt_bracket_mono hs hst) h0 (by norm_num)

/-- `t · exp (−t) ≤ 0.37` for nonnegative `t`. -/
theorem t_mul_exp_neg_le {t : ℝ} (ht : 0 ≤ t) : t * Real.exp (-t) ≤ 0.37 := by
  have h1 : t ≤ Real.exp (t - 1) := by
    have := Real.add_one_le_exp (t - 1)
    linarith
  have h2 : t * Real.exp (-t) ≤ Real.exp (t - 1) * Real.exp (-t) :=
    mul_le_mul_of_nonneg_right h1 (Real.exp_pos (-t)).le
  have h3 : Real.exp (t - 1) * Real.exp (-t) = Real.exp (-1) := by
    rw [← Real.exp_add]; ring_nf
  have h4 : Real.exp (-1) ≤ 0.37 := by
    rw [Real.exp_neg]
    have h5 := Real.exp_one_gt_d9
    have h6 : (0:ℝ) < Real.exp 1 := Real.exp_pos 1
    have h7 : (Real.exp 1)⁻¹ * Real.exp 1 = 1 := inv_mul_cancel₀ h6.ne'
    nlinarith [inv_pos.mpr h6]
  linarith [h2, h3 ▸ h2]

/-- Polynomial bound: `2β(β²−2) ≤ 0.25·((2+β)(1+β))²` for `β ≥ 0`. -/
theorem b92_poly1 {β : ℝ} (hβ : 0 ≤ β) :
    2 * β * (β ^ 2 - 2) ≤ 0.25 * ((2 + β) * (1 + β)) ^ 2 := by
  nlinarith [sq_nonneg (β - 1), sq_nonneg (β ^ 2 - β), sq_nonneg β, mul_nonneg hβ hβ]

/-- Polynomial bound: `β ≤ 0.25·(2+β)(1+β)` for `β ≥ 0`. -/
theorem b92_poly2 {β : ℝ} (hβ : 0 ≤ β) : β ≤ 0.25 * ((2 + β) * (1 + β)) := by
  nlinarith [sq_nonneg (β - 1)]

/-- The sensitivity `b92delta` lies in `[0, 0.24]`. -/
theorem b92delta_bounds (X : ℝ) : 0 ≤ b92delta X ∧ b92delta X ≤ 0.24 := by
  unfold b92delta b92s
  constructor
  · positivity
  · set s := (X / 2.8e6) ^ 2 with hs
    have hs0 : 0 ≤ s := sq_nonneg _
    rw [div_le_iff (by nlinarith)]
    nlinarith [sq_nonneg (s - 0.75)]

/-- Global lower bound on `β · b92Hb γ β` for `β > 0` and `γ > −1/4`. -/
theorem b92Hb_bound {γ β : ℝ} (hβ : 0 < β) (hγ : -(1/4 : ℝ) < γ) :
    -0.7 ≤ β * b92Hb γ β := by
  unfold b92Hb
  set D := (2 + β) * (1 + β) with hD
  have hD0 : 0 < D := by nlinarith
  have hD2 : 0 < D ^ 2 := by positivity
  set E := Real.exp (-β * γ) with hEdef
  have hE : 0 < E := Real.exp_pos _
  rcases le_or_lt 0 γ with hγ0 | hγ0
  · -- nonnegative gama_small: exp decay, bounded via t·exp(−t) ≤ 0.37
    have hEle : E ≤ 1 := by
      rw [hEdef, show -β * γ = -(β * γ) by ring]
      calc Real.exp (-(β * γ)) ≤ Real.exp 0 :=
            Real.exp_le_exp.2 (by nlinarith)
        _ = 1 := Real.exp_zero
    have ht : (γ * β) * E ≤ 0.37 := by
      have h := t_mul_exp_neg_le (show (0:ℝ) ≤ γ * β by positivity)
      rw [hEdef, show -β * γ = -(γ * β) by ring]
      exact h
    -- decompose: β·Hb = 2E·β(2−β²)/D² − 2(γβE)(β/D)
    have hsplit : β * (2 * E * ((2 - β ^ 2) - γ * β * D) / D ^ 2) =
        2 * E * (β * (2 - β ^ 2)) / D ^ 2 - 2 * ((γ * β) * E) * (β / D) := by
      field_simp
      ring
    rw [hsplit]
    have hterm2 : 2 * ((γ * β) * E) * (β / D) ≤ 2 * 0.37 * 0.25 := by
      have hβD : β / D ≤ 0.25 := by
        rw [div_le_iff hD0]
        nlinarith [b92_poly2 hβ.le]
      have h1 : 0 ≤ (γ * β) * E := by positivity
      have h3 : 0 ≤ β / D := by positivity
      nlinarith
    have hterm1 : -(0.25 : ℝ) ≤ 2 * E * (β * (2 - β ^ 2)) / D ^ 2 := by
      rcases le_or_lt (β ^ 2) 2 with hb2 | hb2
      · have h4 : 0 ≤ 2 * E * (β * (2 - β ^ 2)) / D ^ 2 := by
          apply div_nonneg _ hD2.le
          have h5 : 0 ≤ β * (2 - β ^ 2) := by nlinarith
          positivity
        linarith
      · have h1 : 2 * E * (β * (2 - β ^ 2)) / D ^ 2 =
            -(2 * E * (β * (β ^ 2 - 2)) / D ^ 2) := by ring
        rw [h1]
        apply neg_le_neg
        rw [div_le_iff hD2]
        have hpoly := b92_poly1 hβ.le
        have hg1 : 2 * E * (β * (β ^ 2 - 2)) ≤ 2 * β * (β ^ 2 - 2) := by
          nlinarith [mul_nonneg hβ.le (show (0:ℝ) ≤ β ^ 2 - 2 by nlinarith)]
        nlinarith
    linarith
  · -- negative gama_small (its value is always above −1/4): exp growth
    rcases le_or_lt 0 ((2 - β ^ 2) - γ * β * D) with hbr | hbr
    · have h6 : 0 ≤ β * (2 * E * ((2 - β ^ 2) - γ * β * D) / D ^ 2) := by
        apply mul_nonneg hβ.le
        apply div_nonneg _ hD2.le
        positivity
      linarith
    · -- here β² − 2 > (−γ)·β·D ≥ 0, hence (−γ)·β < 1 and exp(−βγ) < e
      have ha : 0 < -γ := by linarith
      have hb2 : 0 < β ^ 2 - 2 := by nlinarith [mul_pos (mul_pos ha hβ) hD0]
      have h1 : (-γ) * β * D < β ^ 2 - 2 := by nlinarith
      have h2 : β ^ 2 - 2 < D := by nlinarith
      have haβ : (-γ) * β < 1 := by
        by_contra hcon
        push_neg at hcon
        have h7 : D ≤ (-γ) * β * D := le_mul_of_one_le_left hD0.le hcon
        linarith
      have hElt : E < 2.7182818286 := by
        rw [hEdef]
        calc Real.exp (-β * γ) < Real.exp 1 := by
              apply Real.exp_lt_exp.2
              nlinarith
          _ < 2.7182818286 := Real.exp_one_lt_d9
      have hform : β * (2 * E * ((2 - β ^ 2) - γ * β * D) / D ^ 2) =
          (β * (2 * E * ((2 - β ^ 2) - γ * β * D))) / D ^ 2 := by ring
      rw [hform]
      rw [le_div_iff hD2]
      -- numerator ≥ −2Eβ(β²−2) ≥ −E·0.25·D² ≥ −0.68·D²
      have hA : 2 * β * (β ^ 2 - 2) ≤ 0.25 * D ^ 2 := by
        rw [hD]; exact b92_poly1 hβ.le
      have hB : E * (2 * β * (β ^ 2 - 2)) ≤ E * (0.25 * D ^ 2) :=
        mul_le_mul_of_nonneg_left hA hE.le
      have hC2 : E * (0.25 * D ^ 2) ≤ 2.7182818286 * (0.25 * D ^ 2) :=
        mul_le_mul_of_nonneg_right hElt.le (by positivity)
      have h9 : 0 ≤ (-γ) * β ^ 2 * D := by positivity
      have hg3 : 0 ≤ 2 * E * ((-γ) * β ^ 2 * D) :=
        mul_nonneg (mul_nonneg (by norm_num) hE.le) h9
      have hgoal : β * (2 * E * ((2 - β ^ 2) - γ * β * D)) =
          -(E * (2 * β * (β ^ 2 - 2))) + 2 * E * ((-γ) * β ^ 2 * D) := by ring
      rw [hgoal]
      linarith [hB, hC2, hg3]

/-! ### Positivity and algebraic relations of the `b92` pieces -/

theorem b92s_nonneg (X : ℝ) : 0 ≤ b92s X := by unfold b92s; positivity

theorem b92C_pos {c : ℝ} (hc : 0 < c) (X : ℝ) : 0 < b92C c X := by
  unfold b92C b92s; positivity

theorem b92P_pos {c X : ℝ} (hc : 0 < c) (hX : 0 < X) : 0 < b92P c X :=
  mul_pos hX (b92C_pos hc X)

theorem b92w_pos {c X : ℝ} (hc : 0 < c) (hX : 0 < X) : 0 < b92w c X :=
  div_pos (Real.sqrt_pos.2 (b92P_pos hc hX)) (by norm_num)

theorem b92r_gt_one {c X : ℝ} (hc : 0 < c) (hX : 0 < X) : 1 < b92r c X :=
  one_lt_sqrt_one_add (b92w_pos hc hX)

theorem b92beta_pos {c X : ℝ} (hc : 0 < c) (hX : 0 < X) : 0 < b92beta c X := by
  have h := b92r_gt_one hc hX; unfold b92beta; linarith

theorem b92D_pos {c X : ℝ} (hc : 0 < c) (hX : 0 < X) : 0 < b92D c X := by
  have h := b92beta_pos hc hX; unfold b92D; nlinarith

theorem b92h_nonneg {c X : ℝ} (γ : ℝ) (hc : 0 < c) (hX : 0 < X) :
    0 ≤ b92h c γ X := by
  have hβ := b92beta_pos hc hX
  have hD := b92D_pos hc hX
  unfold b92h
  apply div_nonneg _ hD.le
  have hE := Real.exp_pos (-b92beta c X * γ)
  nlinarith

theorem b92NRe_pos {c X : ℝ} (γ : ℝ) (hc : 0 < c) (hX : 0 < X) :
    0 < b92NRe c γ X := by
  have hβ := b92beta_pos hc hX
  have hC := b92C_pos hc X
  have hh := b92h_nonneg γ hc hX
  unfold b92NRe
  have h1 : 0 < 6 * b92beta c X ^ 2 / b92C c X := by
    apply div_pos _ hC; nlinarith
  nlinarith

theorem b92r_sq {c X : ℝ} (hc : 0 < c) (hX : 0 < X) :
    b92r c X ^ 2 = 1 + b92w c X := by
  unfold b92r
  rw [Real.sq_sqrt]
  have h := b92w_pos hc hX; linarith

theorem b92sqrtP (c X : ℝ) : Real.sqrt (b92P c X) = 6 * b92w c X := by
  unfold b92w; ring

theorem b92w_eq {c X : ℝ} (hc : 0 < c) (hX : 0 < X) :
    b92w c X = b92beta c X * (b92r c X + 1) := by
  have h := b92r_sq hc hX
  unfold b92beta
  linear_combination -h

theorem b92P_eq {c X : ℝ} (hc : 0 < c) (hX : 0 < X) :
    b92P c X = 36 * b92w c X ^ 2 := by
  have h := Real.sq_sqrt (b92P_pos hc hX).le
  rw [b92sqrtP] at h
  linear_combination -h

/-! ### Derivatives of the `b92` pieces (at `X > 0`) -/

theorem b92s_deriv (X : ℝ) : HasDerivAt b92s (2 * X / 2.8e6 ^ 2) X := by
  have h := ((hasDerivAt_id X).div_const (2.8e6 : ℝ)).pow 2
  convert h using 1
  push_cast
  rw [pow_one]
  simp only [id_eq]
  ring

theorem b92C_deriv (c X : ℝ) : HasDerivAt (b92C c)
    (c * 0.6 * (2 * X / 2.8e6 ^ 2) / (1 + b92s X) ^ 2) X := by
  have hs := b92s_deriv X
  have hnum : HasDerivAt (fun Y => c * (1 + 1.6 * b92s Y))
      (c * (1.6 * (2 * X / 2.8e6 ^ 2))) X := ((hs.const_mul 1.6).const_add 1).const_mul c
  have hden : HasDerivAt (fun Y => 1 + b92s Y) (2 * X / 2.8e6 ^ 2) X := hs.const_add 1
  have hs0 := b92s_nonneg X
  have hden0 : (1 + b92s X) ≠ 0 := by linarith
  have h := hnum.div hden hden0
  convert h using 1
  field_simp
  ring

theorem b92C_deriv_nice {c X : ℝ} (hc : 0 < c) (hX : 0 < X) :
    HasDerivAt (b92C c) (b92C c X * b92delta X / X) X := by
  have h := b92C_deriv c X
  convert h using 1
  have hs0 := b92s_nonneg X
  unfold b92C b92delta b92s
  unfold b92s at hs0
  field_simp
  ring

theorem b92P_deriv {c X : ℝ} (hc : 0 < c) (hX : 0 < X) :
    HasDerivAt (b92P c) (b92P c X * (1 + b92delta X) / X) X := by
  have h := (hasDerivAt_id X).mul (b92C_deriv_nice hc hX)
  convert h using 1
  unfold b92P
  field_simp
  ring

theorem b92w_deriv {c X : ℝ} (hc : 0 < c) (hX : 0 < X) :
    HasDerivAt (b92w c) (b92w c X * (1 + b92delta X) / (2 * X)) X := by
  have hP := b92P_deriv hc hX
  have hP0 := b92P_pos hc hX
  have h := (hP.sqrt hP0.ne').div_const 6
  have hw0 := b92w_pos hc hX
  convert h using 1
  rw [b92sqrtP, b92P_eq hc hX]
  field_simp
  ring

theorem b92beta_deriv {c X : ℝ} (hc : 0 < c) (hX : 0 < X) :
    HasDerivAt (b92beta c)
      (b92beta c X * (b92r c X + 1) * (1 + b92delta X) / (4 * b92r c X * X)) X := by
  have hw := b92w_deriv hc hX
  have hw0 := b92w_pos hc hX
  have h1w : (1 : ℝ) + b92w c X ≠ 0 := by linarith
  have h := ((hw.const_add 1).sqrt h1w).sub_const 1
  have hr1 := b92r_gt_one hc hX
  have hr0 : b92r c X ≠ 0 := by linarith
  convert h using 1
  have hrdef : Real.sqrt (1 + b92w c X) = b92r c X := rfl
  rw [hrdef, ← b92w_eq hc hX, div_div]
  ring

theorem b92h_deriv {c X : ℝ} (γ : ℝ) (hc : 0 < c) (hX : 0 < X) :
    HasDerivAt (b92h c γ)
      (b92Hb γ (b92beta c X) *
        (b92beta c X * (b92r c X + 1) * (1 + b92delta X) / (4 * b92r c X * X))) X := by
  have hβ := b92beta_deriv hc hX
  set Bd := b92beta c X * (b92r c X + 1) * (1 + b92delta X) / (4 * b92r c X * X)
    with hBd
  have hn : HasDerivAt (fun Y => 2 * b92beta c Y * Real.exp (-b92beta c Y * γ))
      (2 * Bd * Real.exp (-b92beta c X * γ) +
        2 * b92beta c X * (Real.exp (-b92beta c X * γ) * (-Bd * γ))) X := by
    have hinner : HasDerivAt (fun Y => -b92beta c Y * γ) (-Bd * γ) X :=
      hβ.neg.mul_const γ
    have hexp := hinner.exp
    have h2β : HasDerivAt (fun Y => 2 * b92beta c Y) (2 * Bd) X := hβ.const_mul 2
    exact h2β.mul hexp
  have hDd : HasDerivAt (fun Y => b92D c Y)
      (Bd * (1 + b92beta c X) + (2 + b92beta c X) * Bd) X := by
    have h := (hβ.const_add 2).mul (hβ.const_add 1)
    exact h
  have hD0 := b92D_pos hc hX
  have h := hn.div hDd hD0.ne'
  convert h using 1
  unfold b92Hb b92D
  field_simp
  ring

theorem b92NRe_deriv {c X : ℝ} (γ : ℝ) (hc : 0 < c) (hX : 0 < X) :
    HasDerivAt (b92NRe c γ)
      (6 * b92beta c X ^ 2 *
        ((2 * (1 + b92h c γ X) + b92beta c X * b92Hb γ (b92beta c X)) *
            ((b92r c X + 1) * (1 + b92delta X)) -
          4 * b92r c X * (1 + b92h c γ X) * b92delta X) /
        (4 * b92r c X * X * b92C c X)) X := by
  have hβ := b92beta_deriv hc hX
  have hC := b92C_deriv_nice hc hX
  have hh := b92h_deriv γ hc hX
  have hC0 := b92C_pos hc X
  have hβ0 := b92beta_pos hc hX
  have hr1 := b92r_gt_one hc hX
  have hr0 : b92r c X ≠ 0 := by linarith
  have hnum := (hβ.pow 2).const_mul 6
  have hfrac := hnum.div hC hC0.ne'
  have h := hfrac.mul (hh.const_add 1)
  convert h using 1
  push_cast
  rw [pow_one]
  field_simp
  ring

theorem b92NRe_deriv_pos {c X : ℝ} (γ : ℝ) (hc : 0 < c) (hγ : -(1/4 : ℝ) < γ)
    (hX : 0 < X) :
    0 < 6 * b92beta c X ^ 2 *
        ((2 * (1 + b92h c γ X) + b92beta c X * b92Hb γ (b92beta c X)) *
            ((b92r c X + 1) * (1 + b92delta X)) -
          4 * b92r c X * (1 + b92h c γ X) * b92delta X) /
        (4 * b92r c X * X * b92C c X) := by
  have hβ := b92beta_pos hc hX
  have hr := b92r_gt_one hc hX
  have hh := b92h_nonneg γ hc hX
  have hC := b92C_pos hc X
  have hδ := b92delta_bounds X
  have hHb := b92Hb_bound hβ hγ
  apply div_pos
  · apply mul_pos (show (0:ℝ) < 6 * b92beta c X ^ 2 by nlinarith [mul_pos hβ hβ])
    have h1 : 1.3 * (1 + b92h c γ X) ≤
        2 * (1 + b92h c γ X) + b92beta c X * b92Hb γ (b92beta c X) := by linarith
    have h2 : 0 < (1 + b92h c γ X) *
        (1.3 * (b92r c X + 1) * (1 + b92delta X) - 4 * b92r c X * b92delta X) := by
      apply mul_pos (by linarith)
      nlinarith [hδ.1, hδ.2,
        mul_nonneg (show (0:ℝ) ≤ 0.24 - b92delta X by linarith [hδ.2])
          (show (0:ℝ) ≤ b92r c X by linarith),
        mul_nonneg hδ.1 (show (0:ℝ) ≤ b92r c X - 1 by linarith)]
    have h3 : 1.3 * (1 + b92h c γ X) * ((b92r c X + 1) * (1 + b92delta X)) ≤
        (2 * (1 + b92h c γ X) + b92beta c X * b92Hb γ (b92beta c X)) *
          ((b92r c X + 1) * (1 + b92delta X)) := by
      apply mul_le_mul_of_nonneg_right h1
      nlinarith [hδ.1]
    nlinarith [h2, h3]
  · exact mul_pos (mul_pos (mul_pos (by norm_num : (0:ℝ) < 4)
      (by linarith : 0 < b92r c X)) hX) hC

/-- `N_Re` of Böhm 1992 is strictly increasing in the Best number. -/
theorem b92NRe_strictMonoOn (c γ : ℝ) (hc : 0 < c) (hγ : -(1/4 : ℝ) < γ) :
    StrictMonoOn (b92NRe c γ) (Set.Ioi 0) := by
  apply strictMonoOn_of_deriv_pos (convex_Ioi 0)
  · intro x hx
    exact ((b92NRe_deriv γ hc (Set.mem_Ioi.mp hx)).differentiableAt).continuousAt.continuousWithinAt
  · intro x hx
    rw [interior_Ioi] at hx
    rw [(b92NRe_deriv γ hc (Set.mem_Ioi.mp hx)).deriv]
    exact b92NRe_deriv_pos γ hc hγ (Set.mem_Ioi.mp hx)

/-- `C·√(X/C) = √(X·C)` for nonnegative `X` and positive `C`. -/
theorem sqrt_shift {X C : ℝ} (hX : 0 ≤ X) (hC : 0 < C) :
    C / 6 / 1 * Real.sqrt (X / C) = Real.sqrt (X * C) / 6 := by
  have h1 : C * Real.sqrt (X / C) = Real.sqrt (X * C) := by
    have h2 : X * C = C ^ 2 * (X / C) := by
      field_simp
      ring
    rw [h2, Real.sqrt_mul (sq_nonneg C), Real.sqrt_sq hC.le]
  calc C / 6 / 1 * Real.sqrt (X / C) = C * Real.sqrt (X / C) / 6 := by ring
    _ = Real.sqrt (X * C) / 6 := by rw [h1]

/-- `gama_small` of the source at aspect ratio 1 is greater than −1/4. -/
theorem b92gam_gt {c : ℝ} (hc : 0 < c) : -(1/4 : ℝ) < b92gam c := by
  unfold b92gam
  rw [div_div]
  have h1 : (4.5 - c) / (4 * c) = 4.5 / (4 * c) - 1 / 4 := by
    field_simp
    ring
  rw [h1]
  have h2 : 0 < 4.5 / (4 * c) := by positivity
  linarith

theorem b92c_ge (q : ℝ) : 0.292 ≤ b92c q := by
  unfold b92c
  nlinarith [le_max_left (1 : ℝ) (q * (1.46 * q - 0.46))]

theorem b92c_pos (q : ℝ) : 0 < b92c q := lt_of_lt_of_le (by norm_num) (b92c_ge q)

/-- `Boehm1992core` at the default aspect ratio factors through `b92NRe`. -/
theorem Boehm1992core_eq {d m a ρ ν : ℝ} (hd : 0 < d) (hm : 0 < m) (ha : 0 < a)
    (hρ : 0 < ρ) (hν : 0 < ν) :
    Boehm1992core d m a ρ ν 1 =
      b92NRe (b92c (b92q d a)) (b92gam (b92c (b92q d a))) (b92Xof d m a ρ ν) *
        (ν * ρ) / d / ρ := by
  have hq : 0 < b92q d a := by
    unfold b92q
    positivity
  have hc := b92c_pos (b92q d a)
  have hX : 0 < b92Xof d m a ρ ν := by
    unfold b92Xof
    have hmax : 0 < max (b92q d a ^ (0.25:ℝ)) (b92q d a) :=
      lt_max_of_lt_right hq
    have hg := gAccel_pos
    have hπ := Real.pi_pos
    apply div_pos (by positivity) (by positivity)
  have hC := b92C_pos hc (b92Xof d m a ρ ν)
  simp only [Boehm1992core]
  rw [show (1.0:ℝ) = 1 from by norm_num, show (2.0:ℝ) = 2 from by norm_num,
    show (4.0:ℝ) = 4 from by norm_num, show (6.0:ℝ) = 6 from by norm_num,
    show (8.0:ℝ) = 8 from by norm_num]
  rw [max_self]
  rw [show (3.76:ℝ) - 8.41 * 1 + 9.18 * 1 ^ 2 - 3.53 * 1 ^ 3 = 1 from by norm_num]
  rw [min_eq_right (by norm_num : (1:ℝ) ≤ 1.98)]
  rw [max_self]
  rw [Real.sqrt_one]
  rw [show (4.5:ℝ) * 1 ^ 2 * 1 = 4.5 from by norm_num]
  rw [show (6:ℝ) * 1 = 6 from by norm_num]
  rw [show max ((0.292:ℝ) * 1 * 1) (0.492 - 0.2 / 1) = 0.292 from by
    rw [show (0.292:ℝ) * 1 * 1 = 0.292 from by norm_num,
      show (0.492:ℝ) - 0.2 / 1 = 0.292 from by norm_num, max_self]]
  rw [show max (1:ℝ) (a / (Real.pi / 4 * d ^ 2) *
      (1.46 * (a / (Real.pi / 4 * d ^ 2)) - 0.46)) * 0.292 =
      b92c (b92q d a) from rfl]
  rw [show Real.pi * (ν * ρ) ^ 2 * 1 = Real.pi * (ν * ρ) ^ 2 from mul_one _]
  rw [show (8:ℝ) * m * gAccel * ρ / (Real.pi * (ν * ρ) ^ 2 *
      max ((a / (Real.pi / 4 * d ^ 2)) ^ (0.25:ℝ)) (a / (Real.pi / 4 * d ^ 2))) =
      b92Xof d m a ρ ν from rfl]
  rw [show b92c (b92q d a) * (1 + 1.6 * (b92Xof d m a ρ ν / 2.8e6) ^ 2) /
      (1 + (b92Xof d m a ρ ν / 2.8e6) ^ 2) =
      b92C (b92c (b92q d a)) (b92Xof d m a ρ ν) from rfl]
  rw [sqrt_shift hX.le hC]
  rw [show Real.sqrt (b92Xof d m a ρ ν * b92C (b92c (b92q d a)) (b92Xof d m a ρ ν)) / 6 =
      b92w (b92c (b92q d a)) (b92Xof d m a ρ ν) from rfl]
  rw [show Real.sqrt (1 + b92w (b92c (b92q d a)) (b92Xof d m a ρ ν)) =
      b92r (b92c (b92q d a)) (b92Xof d m a ρ ν) from rfl]
  rw [show b92r (b92c (b92q d a)) (b92Xof d m a ρ ν) - 1 =
      b92beta (b92c (b92q d a)) (b92Xof d m a ρ ν) from rfl]
  rw [show (4.5 - b92c (b92q d a)) / 4 / b92c (b92q d a) =
      b92gam (b92c (b92q d a)) from rfl]
  rw [show 2 * b92beta (b92c (b92q d a)) (b92Xof d m a ρ ν) *
      Real.exp (-b92beta (b92c (b92q d a)) (b92Xof d m a ρ ν) *
        b92gam (b92c (b92q d a))) /
      ((2 + b92beta (b92c (b92q d a)) (b92Xof d m a ρ ν)) *
        (1 + b92beta (b92c (b92q d a)) (b92Xof d m a ρ ν))) =
      b92h (b92c (b92q d a)) (b92gam (b92c (b92q d a))) (b92Xof d m a ρ ν)
      from rfl]
  simp only [b92NRe]
  ring

/-! ### Positivity and mass-monotonicity of the four velocity models -/

theorem b92q_pos {d a : ℝ} (hd : 0 < d) (ha : 0 < a) : 0 < b92q d a := by
  unfold b92q
  have hπ := Real.pi_pos
  positivity

theorem b92Xof_pos {d m a ρ ν : ℝ} (hd : 0 < d) (hm : 0 < m) (ha : 0 < a)
    (hρ : 0 < ρ) (hν : 0 < ν) : 0 < b92Xof d m a ρ ν := by
  unfold b92Xof
  have hmax : 0 < max (b92q d a ^ (0.25:ℝ)) (b92q d a) :=
    lt_max_of_lt_right (b92q_pos hd ha)
  have hg := gAccel_pos
  have hπ := Real.pi_pos
  exact div_pos (by positivity) (by positivity)

theorem b92Xof_mono {d a ρ ν m m2 : ℝ} (hd : 0 < d) (ha : 0 < a) (hρ : 0 < ρ)
    (hν : 0 < ν) (hmm : m < m2) : b92Xof d m a ρ ν < b92Xof d m2 a ρ ν := by
  unfold b92Xof
  have hmax : 0 < max (b92q d a ^ (0.25:ℝ)) (b92q d a) :=
    lt_max_of_lt_right (b92q_pos hd ha)
  have hg := gAccel_pos
  have hπ := Real.pi_pos
  rw [div_lt_div_iff (by positivity) (by positivity)]
  have hfac : 0 < gAccel * ρ *
      (Real.pi * (ν * ρ) ^ 2 * max (b92q d a ^ (0.25:ℝ)) (b92q d a)) := by positivity
  nlinarith [hfac]

/-- Positivity of `Boehm1992` at the default aspect ratio. -/
theorem Boehm1992core_pos {d m a ρ ν : ℝ} (hd : 0 < d) (hm : 0 < m)
    (ha : 0 < a) (hρ : 0 < ρ) (hν : 0 < ν) :
    0 < Boehm1992core d m a ρ ν 1 := by
  rw [Boehm1992core_eq hd hm ha hρ hν]
  have hc := b92c_pos (b92q d a)
  have hX := b92Xof_pos hd hm ha hρ hν
  have hN := b92NRe_pos (b92gam (b92c (b92q d a))) hc hX
  exact div_pos (div_pos (mul_pos hN (mul_pos hν hρ)) hd) hρ

/-- Strict mass-monotonicity of `Boehm1992` at the default aspect ratio. -/
theorem Boehm1992core_mono {d a m m2 ρ ν : ℝ} (hd : 0 < d) (ha : 0 < a)
    (hρ : 0 < ρ) (hν : 0 < ν) (hm : 0 < m) (hmm : m < m2) :
    Boehm1992core d m a ρ ν 1 < Boehm1992core d m2 a ρ ν 1 := by
  rw [Boehm1992core_eq hd hm ha hρ hν,
    Boehm1992core_eq hd (lt_trans hm hmm) ha hρ hν]
  have hc := b92c_pos (b92q d a)
  have hX1 := b92Xof_pos hd hm ha hρ hν
  have hX2 := b92Xof_pos hd (lt_trans hm hmm) ha hρ hν
  have hXlt : b92Xof d m a ρ ν < b92Xof d m2 a ρ ν :=
    b92Xof_mono hd ha hρ hν hmm
  have hmono := b92NRe_strictMonoOn (b92c (b92q d a)) (b92gam (b92c (b92q d a)))
    hc (b92gam_gt hc)
  have hN := hmono (Set.mem_Ioi.mpr hX1) (Set.mem_Ioi.mpr hX2) hXlt
  have hk : 0 < ν * ρ := mul_pos hν hρ
  have h1 := mul_lt_mul_of_pos_right hN hk
  exact (div_lt_div_right hρ).2 ((div_lt_div_right hd).2 h1)

/-- `Fψ` is strictly increasing: the turbulence factor grows slower than
linearly. -/
theorem Fpsi_mono {cc F1 F2 : ℝ} (hcc : 0 ≤ cc) (hF1 : 0 < F1) (hF : F1 < F2) :
    F1 * (1 + cc * F1 ^ 2) / (1 + 1.6 * (cc * F1 ^ 2)) <
      F2 * (1 + cc * F2 ^ 2) / (1 + 1.6 * (cc * F2 ^ 2)) := by
  have hp1 : (0:ℝ) < 1 + 1.6 * (cc * F1 ^ 2) := by positivity
  have hp2 : (0:ℝ) < 1 + 1.6 * (cc * F2 ^ 2) := by positivity
  rw [div_lt_div_iff hp1 hp2]
  have hid : F2 * (1 + cc * F2 ^ 2) * (1 + 1.6 * (cc * F1 ^ 2)) -
      F1 * (1 + cc * F1 ^ 2) * (1 + 1.6 * (cc * F2 ^ 2)) =
      (F2 - F1) * (1 + cc * (F1 ^ 2 + F2 ^ 2 - 0.6 * (F1 * F2)) +
        1.6 * cc ^ 2 * (F1 * F2) ^ 2) := by ring
  have hq : 0 ≤ F1 ^ 2 + F2 ^ 2 - 0.6 * (F1 * F2) := by
    nlinarith [sq_nonneg (F1 - F2), mul_pos hF1 (lt_trans hF1 hF)]
  nlinarith [hid, mul_nonneg hcc hq, sq_nonneg (F1 * F2),
    mul_nonneg (mul_nonneg (by norm_num : (0:ℝ) ≤ 1.6) (sq_nonneg cc))
      (sq_nonneg (F1 * F2))]

/-- Positivity of `Boehm1989`. -/
theorem Boehm1989core_pos {d m a ρ ν : ℝ} (hd : 0 < d) (hm : 0 < m)
    (ha : 0 < a) (hρ : 0 < ρ) (hν : 0 < ν) : 0 < Boehm1989core d m a ρ ν := by
  simp only [Boehm1989core, rpow_half]
  rw [show (1.0:ℝ) = 1 from by norm_num]
  have hπ := Real.pi_pos
  have hg := gAccel_pos
  set X := 8.0 * m * gAccel * ρ /
    (Real.pi * (ν * ρ) ^ 2 * (a / (Real.pi / 4.0 * d ^ 2)) ^ (0.25:ℝ)) with hXdef
  have hX : 0 < X := by
    rw [hXdef]
    have hq : (0:ℝ) < a / (Real.pi / 4.0 * d ^ 2) := by positivity
    have h4 := Real.rpow_pos_of_pos hq (0.25:ℝ)
    exact div_pos (by positivity) (by positivity)
  have hb : 0 < Real.sqrt (1 + 0.1519 * Real.sqrt X) - 1 := by
    have h5 := one_lt_sqrt_one_add
      (show (0:ℝ) < 0.1519 * Real.sqrt X from
        mul_pos (by norm_num) (Real.sqrt_pos.2 hX))
    linarith
  have h6 : 0 < 8.5 * (Real.sqrt (1 + 0.1519 * Real.sqrt X) - 1) ^ 2 * (ν * ρ) :=
    mul_pos (mul_pos (by norm_num) (pow_pos hb 2)) (mul_pos hν hρ)
  exact div_pos (div_pos h6 hd) hρ

/-- Strict mass-monotonicity of `Boehm1989`. -/
theorem Boehm1989core_mono {d a ρ ν m m2 : ℝ} (hd : 0 < d) (ha : 0 < a)
    (hρ : 0 < ρ) (hν : 0 < ν) (hm : 0 < m) (hmm : m < m2) :
    Boehm1989core d m a ρ ν < Boehm1989core d m2 a ρ ν := by
  simp only [Boehm1989core, rpow_half]
  rw [show (1.0:ℝ) = 1 from by norm_num]
  have hπ := Real.pi_pos
  have hg := gAccel_pos
  have hq : (0:ℝ) < a / (Real.pi / 4.0 * d ^ 2) := by positivity
  have hrp := Real.rpow_pos_of_pos hq (0.25:ℝ)
  set DEN := Real.pi * (ν * ρ) ^ 2 * (a / (Real.pi / 4.0 * d ^ 2)) ^ (0.25:ℝ)
    with hDEN
  have hden : 0 < DEN := by rw [hDEN]; positivity
  have hX1 : 0 < 8.0 * m * gAccel * ρ / DEN := by positivity
  have hXlt : 8.0 * m * gAccel * ρ / DEN < 8.0 * m2 * gAccel * ρ / DEN :=
    (div_lt_div_right hden).2 (by nlinarith [mul_pos hg hρ])
  have hs := Real.sqrt_lt_sqrt hX1.le hXlt
  have h1 : (0:ℝ) ≤ 0.1519 * Real.sqrt (8.0 * m * gAccel * ρ / DEN) := by positivity
  have h2 : 0.1519 * Real.sqrt (8.0 * m * gAccel * ρ / DEN) <
      0.1519 * Real.sqrt (8.0 * m2 * gAccel * ρ / DEN) := by nlinarith
  have hbr := bracket_sq_mono h1 h2
  have hk := mul_pos hν hρ
  have h3 : 8.5 * (Real.sqrt (1 + 0.1519 * Real.sqrt (8.0 * m * gAccel * ρ / DEN)) - 1) ^ 2 * (ν * ρ) <
      8.5 * (Real.sqrt (1 + 0.1519 * Real.sqrt (8.0 * m2 * gAccel * ρ / DEN)) - 1) ^ 2 * (ν * ρ) := by
    nlinarith [hbr, hk]
  exact (div_lt_div_right hρ).2 ((div_lt_div_right hd).2 h3)

/-- Positivity of `HeymsfieldWestbrook2010` at the default `k = 0.5`. -/
theorem HeymsfieldWestbrook2010core_pos {d m a ρ ν : ℝ} (hd : 0 < d)
    (hm : 0 < m) (ha : 0 < a) (hρ : 0 < ρ) (hν : 0 < ν) :
    0 < HeymsfieldWestbrook2010core d m a ρ ν 0.5 := by
  simp only [HeymsfieldWestbrook2010core, rpow_half]
  have hπ := Real.pi_pos
  have hg := gAccel_pos
  have harea : (0:ℝ) < a / ((Real.pi / 4.0) * d ^ 2) := by positivity
  have hrp := Real.rpow_pos_of_pos harea ((1.0:ℝ) - 0.5)
  have hd2 := Real.rpow_pos_of_pos (show (0:ℝ) < 8.0 by norm_num) (2.0:ℝ)
  set X := 8.0 * ρ * m * gAccel /
    (Real.pi * (a / ((Real.pi / 4.0) * d ^ 2)) ^ ((1.0:ℝ) - 0.5) * (ν * ρ) ^ 2)
    with hXdef
  have hX : 0 < X := by
    rw [hXdef]
    exact div_pos (by positivity) (by positivity)
  have hinner : (0:ℝ) < 4.0 * Real.sqrt X / ((8.0:ℝ) ^ (2.0:ℝ) * Real.sqrt 0.35) := by
    have h35 : (0:ℝ) < Real.sqrt 0.35 := Real.sqrt_pos.2 (by norm_num)
    have h4 : (0:ℝ) < 4.0 * Real.sqrt X := mul_pos (by norm_num) (Real.sqrt_pos.2 hX)
    positivity
  have hb : 0 < Real.sqrt (1.0 + 4.0 * Real.sqrt X /
      ((8.0:ℝ) ^ (2.0:ℝ) * Real.sqrt 0.35)) - 1 := by
    rw [show (1.0:ℝ) = 1 from by norm_num]
    have h5 := one_lt_sqrt_one_add hinner
    linarith
  have hRe : 0 < 0.25 * (8.0:ℝ) ^ 2 *
      (Real.sqrt (1.0 + 4.0 * Real.sqrt X / ((8.0:ℝ) ^ (2.0:ℝ) * Real.sqrt 0.35)) - 1) ^ 2 :=
    mul_pos (by norm_num) (pow_pos hb 2)
  have h6 : 0 < ν * ρ * (0.25 * (8.0:ℝ) ^ 2 *
      (Real.sqrt (1.0 + 4.0 * Real.sqrt X / ((8.0:ℝ) ^ (2.0:ℝ) * Real.sqrt 0.35)) - 1) ^ 2) :=
    mul_pos (mul_pos hν hρ) hRe
  exact div_pos h6 (mul_pos hρ hd)

/-- Strict mass-monotonicity of `HeymsfieldWestbrook2010` at `k = 0.5`. -/
theorem HeymsfieldWestbrook2010core_mono {d a ρ ν m m2 : ℝ} (hd : 0 < d)
    (ha : 0 < a) (hρ : 0 < ρ) (hν : 0 < ν) (hm : 0 < m) (hmm : m < m2) :
    HeymsfieldWestbrook2010core d m a ρ ν 0.5 <
      HeymsfieldWestbrook2010core d m2 a ρ ν 0.5 := by
  simp only [HeymsfieldWestbrook2010core, rpow_half]
  have hπ := Real.pi_pos
  have hg := gAccel_pos
  have harea : (0:ℝ) < a / ((Real.pi / 4.0) * d ^ 2) := by positivity
  have hrp := Real.rpow_pos_of_pos harea ((1.0:ℝ) - 0.5)
  have hKpos : (0:ℝ) < (8.0:ℝ) ^ (2.0:ℝ) * Real.sqrt 0.35 := by
    have h35 : (0:ℝ) < Real.sqrt 0.35 := Real.sqrt_pos.2 (by norm_num)
    have hd2 := Real.rpow_pos_of_pos (show (0:ℝ) < 8.0 by norm_num) (2.0:ℝ)
    positivity
  set DEN := Real.pi * (a / ((Real.pi / 4.0) * d ^ 2)) ^ ((1.0:ℝ) - 0.5) * (ν * ρ) ^ 2
    with hDEN
  have hden : 0 < DEN := by rw [hDEN]; positivity
  have hX1 : 0 < 8.0 * ρ * m * gAccel / DEN := by positivity
  have hXlt : 8.0 * ρ * m * gAccel / DEN < 8.0 * ρ * m2 * gAccel / DEN :=
    (div_lt_div_right hden).2 (by nlinarith [mul_pos hρ hg])
  have hs := Real.sqrt_lt_sqrt hX1.le hXlt
  have h1 : (0:ℝ) ≤ 4.0 * Real.sqrt (8.0 * ρ * m * gAccel / DEN) / ((8.0:ℝ) ^ (2.0:ℝ) * Real.sqrt 0.35) := by
    positivity
  have h2 : 4.0 * Real.sqrt (8.0 * ρ * m * gAccel / DEN) / ((8.0:ℝ) ^ (2.0:ℝ) * Real.sqrt 0.35) <
      4.0 * Real.sqrt (8.0 * ρ * m2 * gAccel / DEN) / ((8.0:ℝ) ^ (2.0:ℝ) * Real.sqrt 0.35) := by
    apply (div_lt_div_right hKpos).2
    nlinarith
  have hbr' : (Real.sqrt (1 + 4.0 * Real.sqrt (8.0 * ρ * m * gAccel / DEN) / ((8.0:ℝ) ^ (2.0:ℝ) * Real.sqrt 0.35)) - 1) ^ 2 <
      (Real.sqrt (1 + 4.0 * Real.sqrt (8.0 * ρ * m2 * gAccel / DEN) / ((8.0:ℝ) ^ (2.0:ℝ) * Real.sqrt 0.35)) - 1) ^ 2 :=
    bracket_sq_mono h1 h2
  rw [show (1.0:ℝ) = 1 from by norm_num]
  have hk := mul_pos hν hρ
  apply (div_lt_div_right (mul_pos hρ hd)).2
  nlinarith [hbr', hk]

/-- Positivity of the rough-surface drag coefficient. -/
theorem X2Cd_kc05roughCore_pos {X : ℝ} (hX : 0 < X) :
    0 < X2Cd_kc05roughCore X := by
  simp only [X2Cd_kc05roughCore]
  rw [show (1.0:ℝ) = 1 from by norm_num]
  have h06 : (0:ℝ) < Real.sqrt 0.6 := Real.sqrt_pos.2 (by norm_num)
  have hc1 : (0:ℝ) < 4.0 / (5.83 ^ 2 * Real.sqrt 0.6) := by positivity
  have hbr : 0 < Real.sqrt (1 + 4.0 / (5.83 ^ 2 * Real.sqrt 0.6) * Real.sqrt X) - 1 := by
    have h5 := one_lt_sqrt_one_add
      (show (0:ℝ) < 4.0 / (5.83 ^ 2 * Real.sqrt 0.6) * Real.sqrt X from
        mul_pos hc1 (Real.sqrt_pos.2 hX))
    linarith
  have hRe : 0 < 0.25 * (5.83:ℝ) ^ 2 *
      (Real.sqrt (1 + 4.0 / (5.83 ^ 2 * Real.sqrt 0.6) * Real.sqrt X) - 1) ^ 2 :=
    mul_pos (by norm_num) (pow_pos hbr 2)
  have hψ : (0:ℝ) < (1 + (X * 0.35714285714285714285e-6) ^ 2) /
      (1 + 1.6 * (X * 0.35714285714285714285e-6) ^ 2) := by positivity
  have hS : (0:ℝ) < 1 + 5.83 / Real.sqrt (0.25 * (5.83:ℝ) ^ 2 *
      (Real.sqrt (1 + 4.0 / (5.83 ^ 2 * Real.sqrt 0.6) * Real.sqrt X) - 1) ^ 2) := by
    have h7 := Real.sqrt_nonneg (0.25 * (5.83:ℝ) ^ 2 *
      (Real.sqrt (1 + 4.0 / (5.83 ^ 2 * Real.sqrt 0.6) * Real.sqrt X) - 1) ^ 2)
    positivity
  exact div_pos (mul_pos (by norm_num) (pow_pos hS 2)) hψ

/-- Positivity of `KhvorostyanovCurry2005` (rough drag, standard air). -/
theorem KC05_Fpos {m : ℝ} (hm : 0 < m) :
    0 < m * gAccel - rho0Const * (m / iceDensity) * gAccel := by
  rw [gAccel, rho0Const, iceDensity]
  nlinarith [hm]

theorem KhvorostyanovCurry2005core_pos {d m a : ℝ} (hd : 0 < d) (hm : 0 < m)
    (ha : 0 < a) :
    0 < KhvorostyanovCurry2005core d m a rho0Const nu0Const false := by
  simp only [KhvorostyanovCurry2005core, Bool.false_eq_true, if_false]
  have hρ := rho0Const_pos
  have hν := nu0Const_pos
  have hF := KC05_Fpos hm
  rw [abs_of_pos hF]
  have hXbest : 0 < 2.0 * (m * gAccel - rho0Const * (m / iceDensity) * gAccel) *
      rho0Const * d ^ 2 / (a * (nu0Const * rho0Const) ^ 2) :=
    div_pos (mul_pos (mul_pos (mul_pos (by norm_num) hF) hρ) (pow_pos hd 2))
      (mul_pos ha (pow_pos (mul_pos hν hρ) 2))
  have hCd := X2Cd_kc05roughCore_pos hXbest
  apply Real.sqrt_pos.2
  exact div_pos (by nlinarith [hF]) (mul_pos (mul_pos hρ ha) hCd)

set_option maxHeartbeats 1000000 in
/-- The core comparison of the KC05 model: `2F/(B·Cd(A·F))` is strictly
increasing in `F`. -/
theorem kc05_inner_mono {F1 F2 A B : ℝ} (hF1 : 0 < F1) (hF : F1 < F2)
    (hA : 0 < A) (hB : 0 < B) :
    2 * F1 / (B * X2Cd_kc05roughCore (A * F1)) <
      2 * F2 / (B * X2Cd_kc05roughCore (A * F2)) := by
  have hX1 : 0 < A * F1 := mul_pos hA hF1
  have hX2 : 0 < A * F2 := mul_pos hA (lt_trans hF1 hF)
  have hXlt : A * F1 < A * F2 := by nlinarith
  have h06 : (0:ℝ) < Real.sqrt 0.6 := Real.sqrt_pos.2 (by norm_num)
  have hc1 : (0:ℝ) < 4.0 / ((5.83:ℝ) ^ 2 * Real.sqrt 0.6) := by positivity
  -- Reynolds numbers
  set Re1 := 0.25 * (5.83:ℝ) ^ 2 *
    (Real.sqrt (1 + 4.0 / (5.83 ^ 2 * Real.sqrt 0.6) * Real.sqrt (A * F1)) - 1) ^ 2
    with hRe1def
  set Re2 := 0.25 * (5.83:ℝ) ^ 2 *
    (Real.sqrt (1 + 4.0 / (5.83 ^ 2 * Real.sqrt 0.6) * Real.sqrt (A * F2)) - 1) ^ 2
    with hRe2def
  clear_value Re1 Re2
  have hbr1 : 0 < Real.sqrt (1 + 4.0 / (5.83 ^ 2 * Real.sqrt 0.6) * Real.sqrt (A * F1)) - 1 := by
    have h5 := one_lt_sqrt_one_add
      (show (0:ℝ) < 4.0 / (5.83 ^ 2 * Real.sqrt 0.6) * Real.sqrt (A * F1) from
        mul_pos hc1 (Real.sqrt_pos.2 hX1))
    linarith
  have hRe1 : 0 < Re1 := by rw [hRe1def]; exact mul_pos (by norm_num) (pow_pos hbr1 2)
  have hRelt : Re1 < Re2 := by
    rw [hRe1def, hRe2def]
    have hsq : (0:ℝ) ≤ 4.0 / (5.83 ^ 2 * Real.sqrt 0.6) * Real.sqrt (A * F1) := by positivity
    have hlt : 4.0 / (5.83 ^ 2 * Real.sqrt 0.6) * Real.sqrt (A * F1) <
        4.0 / (5.83 ^ 2 * Real.sqrt 0.6) * Real.sqrt (A * F2) := by
      have := Real.sqrt_lt_sqrt hX1.le hXlt
      nlinarith
    nlinarith [bracket_sq_mono hsq hlt]
  have hRe2 : 0 < Re2 := lt_trans hRe1 hRelt
  -- the (1 + do/√Re) factors
  have hsre1 : 0 < Real.sqrt Re1 := Real.sqrt_pos.2 hRe1
  have hsre2 : 0 < Real.sqrt Re2 := Real.sqrt_pos.2 hRe2
  have hsrelt : Real.sqrt Re1 < Real.sqrt Re2 := Real.sqrt_lt_sqrt hRe1.le hRelt
  have hSlt : 1 + 5.83 / Real.sqrt Re2 < 1 + 5.83 / Real.sqrt Re1 := by
    have := div_lt_div_of_pos_left (show (0:ℝ) < 5.83 by norm_num) hsre1 hsrelt
    linarith
  have hS2 : (0:ℝ) < 1 + 5.83 / Real.sqrt Re2 := by positivity
  have hS1 : (0:ℝ) < 1 + 5.83 / Real.sqrt Re1 := by positivity
  have hSsq : (1 + 5.83 / Real.sqrt Re2) ^ 2 < (1 + 5.83 / Real.sqrt Re1) ^ 2 :=
    pow_lt_pow_left hSlt hS2.le (by norm_num)
  -- the F·ψ terms
  set X0l : ℝ := 0.35714285714285714285e-6 with hX0l
  clear_value X0l
  have hψ1 : (0:ℝ) < (1 + (A * F1 * X0l) ^ 2) / (1 + 1.6 * (A * F1 * X0l) ^ 2) := by
    positivity
  have hψ2 : (0:ℝ) < (1 + (A * F2 * X0l) ^ 2) / (1 + 1.6 * (A * F2 * X0l) ^ 2) := by
    positivity
  have hFψ : F1 * ((1 + (A * F1 * X0l) ^ 2) / (1 + 1.6 * (A * F1 * X0l) ^ 2)) <
      F2 * ((1 + (A * F2 * X0l) ^ 2) / (1 + 1.6 * (A * F2 * X0l) ^ 2)) := by
    have h := @Fpsi_mono ((A * X0l) ^ 2) F1 F2 (by positivity) hF1 hF
    calc F1 * ((1 + (A * F1 * X0l) ^ 2) / (1 + 1.6 * (A * F1 * X0l) ^ 2)) =
        F1 * (1 + (A * X0l) ^ 2 * F1 ^ 2) / (1 + 1.6 * ((A * X0l) ^ 2 * F1 ^ 2)) := by
          ring
      _ < F2 * (1 + (A * X0l) ^ 2 * F2 ^ 2) / (1 + 1.6 * ((A * X0l) ^ 2 * F2 ^ 2)) := h
      _ = F2 * ((1 + (A * F2 * X0l) ^ 2) / (1 + 1.6 * (A * F2 * X0l) ^ 2)) := by
          ring
  have hP1 : 0 < F1 * ((1 + (A * F1 * X0l) ^ 2) / (1 + 1.6 * (A * F1 * X0l) ^ 2)) :=
    mul_pos hF1 hψ1
  have hP2 : 0 < F2 * ((1 + (A * F2 * X0l) ^ 2) / (1 + 1.6 * (A * F2 * X0l) ^ 2)) :=
    mul_pos (lt_trans hF1 hF) hψ2
  have e1a : (0:ℝ) < 1 + (A * F1 * X0l) ^ 2 := by positivity
  have e1b : (0:ℝ) < 1 + 1.6 * (A * F1 * X0l) ^ 2 := by positivity
  have e2a : (0:ℝ) < 1 + (A * F2 * X0l) ^ 2 := by positivity
  have e2b : (0:ℝ) < 1 + 1.6 * (A * F2 * X0l) ^ 2 := by positivity
  -- rewrite both sides into the `2Fψ/(B·co·S²)` form and compare
  simp only [X2Cd_kc05roughCore]
  rw [show (1.0:ℝ) = 1 from by norm_num]
  rw [← hRe1def, ← hRe2def, ← hX0l]
  have eL : 2 * F1 / (B * (0.6 * (1 + 5.83 / Real.sqrt Re1) ^ 2 /
      ((1 + (A * F1 * X0l) ^ 2) / (1 + 1.6 * (A * F1 * X0l) ^ 2)))) =
      2 * (F1 * ((1 + (A * F1 * X0l) ^ 2) / (1 + 1.6 * (A * F1 * X0l) ^ 2))) /
        (B * (0.6 * (1 + 5.83 / Real.sqrt Re1) ^ 2)) := by
    field_simp
    ring
  have eR : 2 * F2 / (B * (0.6 * (1 + 5.83 / Real.sqrt Re2) ^ 2 /
      ((1 + (A * F2 * X0l) ^ 2) / (1 + 1.6 * (A * F2 * X0l) ^ 2)))) =
      2 * (F2 * ((1 + (A * F2 * X0l) ^ 2) / (1 + 1.6 * (A * F2 * X0l) ^ 2))) /
        (B * (0.6 * (1 + 5.83 / Real.sqrt Re2) ^ 2)) := by
    field_simp
    ring
  rw [eL, eR]
  rw [div_lt_div_iff (mul_pos hB (mul_pos (by norm_num) (pow_pos hS1 2)))
    (mul_pos hB (mul_pos (by norm_num) (pow_pos hS2 2)))]
  have k1 := mul_lt_mul_of_pos_right hFψ (pow_pos hS2 2)
  have k2 := mul_lt_mul_of_pos_left hSsq hP2
  have k3 : F1 * ((1 + (A * F1 * X0l) ^ 2) / (1 + 1.6 * (A * F1 * X0l) ^ 2)) *
      (1 + 5.83 / Real.sqrt Re2) ^ 2 <
      F2 * ((1 + (A * F2 * X0l) ^ 2) / (1 + 1.6 * (A * F2 * X0l) ^ 2)) *
      (1 + 5.83 / Real.sqrt Re1) ^ 2 := by nlinarith [k1, k2]
  nlinarith [k3, hB]

/-- Strict mass-monotonicity of `KhvorostyanovCurry2005` (rough drag,
standard air). -/
theorem KhvorostyanovCurry2005core_mono {d a m m2 : ℝ} (hd : 0 < d)
    (ha : 0 < a) (hm : 0 < m) (hmm : m < m2) :
    KhvorostyanovCurry2005core d m a rho0Const nu0Const false <
      KhvorostyanovCurry2005core d m2 a rho0Const nu0Const false := by
  simp only [KhvorostyanovCurry2005core, Bool.false_eq_true, if_false]
  have hρ := rho0Const_pos
  have hν := nu0Const_pos
  have hF1 := KC05_Fpos hm
  have hF2 := KC05_Fpos (lt_trans hm hmm)
  rw [abs_of_pos hF1, abs_of_pos hF2]
  have hA : 0 < 2.0 * rho0Const * d ^ 2 / (a * (nu0Const * rho0Const) ^ 2) := by
    positivity
  have hB : 0 < rho0Const * a := mul_pos hρ ha
  have hFlt : m * gAccel - rho0Const * (m / iceDensity) * gAccel <
      m2 * gAccel - rho0Const * (m2 / iceDensity) * gAccel := by
    rw [gAccel, rho0Const, iceDensity]
    nlinarith
  have eX1 : 2.0 * (m * gAccel - rho0Const * (m / iceDensity) * gAccel) *
      rho0Const * d ^ 2 / (a * (nu0Const * rho0Const) ^ 2) =
      2.0 * rho0Const * d ^ 2 / (a * (nu0Const * rho0Const) ^ 2) *
        (m * gAccel - rho0Const * (m / iceDensity) * gAccel) := by
    ring
  have eX2 : 2.0 * (m2 * gAccel - rho0Const * (m2 / iceDensity) * gAccel) *
      rho0Const * d ^ 2 / (a * (nu0Const * rho0Const) ^ 2) =
      2.0 * rho0Const * d ^ 2 / (a * (nu0Const * rho0Const) ^ 2) *
        (m2 * gAccel - rho0Const * (m2 / iceDensity) * gAccel) := by
    ring
  rw [eX1, eX2]
  apply Real.sqrt_lt_sqrt
  · apply le_of_lt
    apply div_pos (by nlinarith [hF1])
    exact mul_pos hB (X2Cd_kc05roughCore_pos (mul_pos hA hF1))
  · exact kc05_inner_mono hF1 hFlt hA hB

/-! ## Claim theorems -/

/-- C1 (counterexample): the quadruple (κ, γ, β, ζ₁) returned by the
input-normalization step is NOT the first four components of the property
database tuple in order: with a database returning components
`[1], [2], [3], [4]` (and so on), the step returns `[1], [3], [2], [4]` —
the second and third components are swapped in transit. -/
theorem C1_counterexample :
    (prepare_input envTriv (NpInput.array [1]) (NpInput.scalar 1) ""
        (some (NpInput.scalar 1)) none none 0).map
      (fun p => (p.kappa, p.gamma, p.beta, p.zeta1)) =
        Except.ok ([1], [3], [2], [4]) ∧
    (fun L : SnowTuple => (L.1, L.2.1, L.2.2.1, L.2.2.2.1))
        (envTriv.snowLibrary [1] "") = ([1], [2], [3], [4]) ∧
    (([1], [3], [2], [4]) : List ℝ × List ℝ × List ℝ × List ℝ) ≠
      ([1], [2], [3], [4]) :=
  ⟨rfl, rfl, by norm_num⟩

/-- C1 (amended): the four SSRGA structure parameters returned by the
input-normalization step (and forwarded to the kernel) are, in the returned
order κ, γ, β, ζ₁, the FIRST, THIRD, SECOND and fourth components of the
property-database lookup tuple: the database supplies them in the order
κ, β, γ, ζ₁ and `_prepare_input` swaps the middle two when returning. -/
theorem C1_parameter_order (E : Externals) (d w : NpInput ℝ) (prop : String)
    (ri : Option (NpInput ℂ)) (t : Option (NpInput ℝ)) (m : Option (NpInput ℝ))
    (θ : ℝ) (p : PrepResult)
    (h : prepare_input E d w prop ri t m θ = .ok p) :
    p.kappa = (E.snowLibrary (convert_to_array d) prop).1 ∧
    p.gamma = (E.snowLibrary (convert_to_array d) prop).2.2.1 ∧
    p.beta = (E.snowLibrary (convert_to_array d) prop).2.1 ∧
    p.zeta1 = (E.snowLibrary (convert_to_array d) prop).2.2.2.1 := by
  rcases ri with _ | r
  · rcases t with _ | tv
    · simp [prepare_input, Except.map] at h
    · simp only [prepare_input, Except.map] at h
      injection h with h
      subst h
      exact ⟨rfl, rfl, rfl, rfl⟩
  · simp only [prepare_input, Except.map] at h
    injection h with h
    subst h
    exact ⟨rfl, rfl, rfl, rfl⟩

/-- C1 (witness for the amended theorem), at the concrete environment
`envTriv`. -/
theorem C1_witness :
    prep0.kappa = (envTriv.snowLibrary [1] "").1 ∧
    prep0.gamma = (envTriv.snowLibrary [1] "").2.2.1 ∧
    prep0.beta = (envTriv.snowLibrary [1] "").2.1 ∧
    prep0.zeta1 = (envTriv.snowLibrary [1] "").2.2.2.1 :=
  C1_parameter_order envTriv (NpInput.array [1]) (NpInput.scalar 1) ""
    (some (NpInput.scalar 1)) none (some (NpInput.scalar 2)) 0 prep0 rfl

/-- C2: whenever the external backscatter-only kernel agrees with the
backscatter component of the external full kernel (the contract of the
shared kernel library, spec section 6), the backscattering cross section of
`calcProperties` equals the output of `backscatter` on identical inputs —
both code paths feed identical normalized inputs to the kernel. -/
theorem C2_calc_backscatter_agree (E : Externals)
    (hker : ∀ de vo wl kk a b c z n,
      E.ssrgaBack de vo wl kk a b c z = (E.ssrga de vo wl kk a b c z n).Cbck)
    (d w : NpInput ℝ) (prop : String) (ri : Option (NpInput ℂ))
    (t : Option (NpInput ℝ)) (m : Option (NpInput ℝ)) (θ : ℝ) (n : Nat) :
    (calcProperties E d w prop ri t m θ n).map CalcResult.Cbck =
      backscatter E d w prop ri t m θ := by
  unfold calcProperties backscatter
  cases hp : prepare_input E d w prop ri t m θ with
  | error e => rfl
  | ok p =>
    simp only [Except.map]
    rw [hker p.Deff p.Vol p.wavelength p.K p.kappa p.gamma p.beta p.zeta1 n]

/-- C2 (witness), at the concrete environment `envTriv`, whose kernels
agree by construction. -/
theorem C2_witness :
    (calcProperties envTriv (NpInput.array [1]) (NpInput.scalar 1) ""
        (some (NpInput.scalar 1)) none none 0 5).map CalcResult.Cbck =
      backscatter envTriv (NpInput.array [1]) (NpInput.scalar 1) ""
        (some (NpInput.scalar 1)) none none 0 :=
  C2_calc_backscatter_agree envTriv (fun _ _ _ _ _ _ _ _ _ => rfl)
    (NpInput.array [1]) (NpInput.scalar 1) "" (some (NpInput.scalar 1))
    none none 0 5

/-- C3: each scattering operation fails with the MissingConfiguration error
exactly when both the refractive index and the temperature are absent. -/
theorem C3_missing_configuration (E : Externals) (d w : NpInput ℝ)
    (prop : String) (ri : Option (NpInput ℂ)) (t : Option (NpInput ℝ))
    (m : Option (NpInput ℝ)) (θ : ℝ) (n : Nat) :
    (calcProperties E d w prop ri t m θ n =
        .error (.missingConfiguration prepErrMsg) ↔ ri = none ∧ t = none) ∧
    (backscatter E d w prop ri t m θ =
        .error (.missingConfiguration prepErrMsg) ↔ ri = none ∧ t = none) ∧
    (backscatVel E d w prop ri t m θ =
        .error (.missingConfiguration prepErrMsg) ↔ ri = none ∧ t = none) := by
  unfold calcProperties backscatter backscatVel prepare_input
  rcases ri with _ | r <;> rcases t with _ | tv <;> simp [Except.map]

/-- C4: when a refractive index or a temperature is supplied, the velocity
returned by `backscatVel` is exactly the velocity of the
`snowMassVelocityArea` lookup for the same diameters and label. -/
theorem C4_backscatVel_velocity (E : Externals) (d w : NpInput ℝ)
    (prop : String) (ri : Option (NpInput ℂ)) (t : Option (NpInput ℝ))
    (m : Option (NpInput ℝ)) (θ : ℝ) (h : ri ≠ none ∨ t ≠ none) :
    (backscatVel E d w prop ri t m θ).map Prod.snd =
      .ok (snowMassVelocityArea E d prop).2.1 := by
  unfold backscatVel prepare_input snowMassVelocityArea
  rcases ri with _ | r
  · rcases t with _ | tv
    · simp at h
    · rfl
  · rfl

/-- C4 (witness). -/
theorem C4_witness :
    (backscatVel envTriv (NpInput.array [1]) (NpInput.scalar 1) ""
        (some (NpInput.scalar 1)) none none 0).map Prod.snd =
      .ok (snowMassVelocityArea envTriv (NpInput.array [1]) "").2.1 :=
  C4_backscatVel_velocity envTriv (NpInput.array [1]) (NpInput.scalar 1) ""
    (some (NpInput.scalar 1)) none none 0 (Or.inl (by simp))

/-- C5: with an explicit mass supplied, `calcProperties` still returns the
model-intrinsic mass of the property-database lookup, while the volume
passed to the scattering kernel is the broadcast supplied mass divided by
the ice density. -/
theorem C5_explicit_mass (E : Externals) (d w : NpInput ℝ) (prop : String)
    (ri : Option (NpInput ℂ)) (t : Option (NpInput ℝ)) (m : NpInput ℝ) (θ : ℝ)
    (n : Nat) (res : CalcResult) (p : PrepResult)
    (hres : calcProperties E d w prop ri t (some m) θ n = .ok res)
    (hp : prepare_input E d w prop ri t (some m) θ = .ok p) :
    res.mass_prop = (E.snowLibrary (convert_to_array d) prop).2.2.2.2.2.2.1 ∧
    p.Vol = (broadcastTo m (convert_to_array d).length).map
      (fun x => x / iceDensity) := by
  constructor
  · rcases ri with _ | r
    · rcases t with _ | tv
      · simp [calcProperties, prepare_input, Except.map] at hres
      · simp only [calcProperties, prepare_input, Except.map] at hres
        injection hres with hres
        subst hres
        rfl
    · simp only [calcProperties, prepare_input, Except.map] at hres
      injection hres with hres
      subst hres
      rfl
  · rcases ri with _ | r
    · rcases t with _ | tv
      · simp [prepare_input, Except.map] at hp
      · simp only [prepare_input, Except.map] at hp
        injection hp with hp
        subst hp
        rfl
    · simp only [prepare_input, Except.map] at hp
      injection hp with hp
      subst hp
      rfl

/-- C5 (witness), at the concrete environment `envTriv` with explicit mass
`2`. -/
theorem C5_witness :
    calcRes0.mass_prop = (envTriv.snowLibrary [1] "").2.2.2.2.2.2.1 ∧
    prep0.Vol = (broadcastTo (NpInput.scalar 2) 1).map
      (fun x => x / iceDensity) :=
  C5_explicit_mass envTriv (NpInput.array [1]) (NpInput.scalar 1) ""
    (some (NpInput.scalar 1)) none (NpInput.scalar 2) 0 5 calcRes0 prep0 rfl rfl

/-- C6: at the default reference density and temperature (actual equal to
reference), the Foote & Du Toit correction is the identity. -/
theorem C6_correction_identity (vel : List ℝ) :
    correctionFooteduToit vel rho0Const 293.15 rho0Const 293.15 = vel := by
  have h0 : rho0Const / rho0Const = 1 := div_self (by norm_num [rho0Const])
  simp only [correctionFooteduToit, h0, Real.logb_one]
  have hY : 0.43 * (0 : ℝ) - 0.4 * (0 : ℝ) ^ (2.5 : ℝ) = 0 := by
    rw [Real.zero_rpow (by norm_num : (2.5 : ℝ) ≠ 0)]; ring
  rw [hY, Real.rpow_zero]
  have hfun : (fun v : ℝ =>
      v * 1 * (1.0 + 0.0023 * ((1.1 : ℝ) - 1) * (293.15 - 293.15))) =
      fun v : ℝ => v := by
    funext v; ring
  rw [hfun]
  exact List.map_id vel

/-- C7: the effective-size projection is mirror symmetric about π/2. -/
theorem C7_effective_size_symmetric (size ar angle : ℝ) (h0 : 0 ≤ angle)
    (h1 : angle ≤ Real.pi) :
    compute_effective_size size ar angle =
      compute_effective_size size ar (Real.pi - angle) := by
  unfold compute_effective_size
  rw [Real.sin_pi_sub, Real.cos_pi_sub, neg_div, neg_sq]

/-- C7 (witness). -/
theorem C7_witness :
    compute_effective_size 1 2 0 = compute_effective_size 1 2 (Real.pi - 0) :=
  C7_effective_size_symmetric 1 2 0 le_rfl Real.pi_nonneg

/-- C8: `Boehm1989` computes exactly the formula stated in the spec:
q = area/(π/4·diam²), eta = nu_air·rho_air,
X = 8·mass·g·rho_air/(π·eta²·q^0.25),
Re = 8.5·(sqrt(1+0.1519·sqrt X) − 1)², velocity = Re·eta/(diam·rho_air). -/
theorem C8_Boehm1989_formula (diam mass area : List ℝ) (rho_air nu_air : ℝ) :
    Boehm1989 diam mass area rho_air nu_air =
      Boehm1989spec diam mass area rho_air nu_air := by
  have hcore : ∀ d m a : ℝ, Boehm1989core d m a rho_air nu_air =
      Boehm1989specCore d m a rho_air nu_air := by
    intro d m a
    unfold Boehm1989core Boehm1989specCore
    simp only [rpow_half]
    rw [div_div]
    norm_num
  unfold Boehm1989 Boehm1989spec
  simp only [hcore]

/-- C9: at the default (standard) air density and viscosity, each of the
four terminal-velocity models returns a strictly positive velocity on
positive diameter, mass and area, and each is strictly increasing in the
mass for fixed diameter and area.  The statement is elementwise: the
vectorized models are the maps of these cores, as the last four conjuncts
record. -/
theorem C9_positive_and_mass_monotone (d m a m2 : ℝ) (hd : 0 < d)
    (hm : 0 < m) (ha : 0 < a) (hmm : m < m2) :
    (0 < Boehm1992core d m a rho0Const nu0Const 1 ∧
      0 < Boehm1989core d m a rho0Const nu0Const ∧
      0 < HeymsfieldWestbrook2010core d m a rho0Const nu0Const 0.5 ∧
      0 < KhvorostyanovCurry2005core d m a rho0Const nu0Const false) ∧
    (Boehm1992core d m a rho0Const nu0Const 1 <
        Boehm1992core d m2 a rho0Const nu0Const 1 ∧
      Boehm1989core d m a rho0Const nu0Const <
        Boehm1989core d m2 a rho0Const nu0Const ∧
      HeymsfieldWestbrook2010core d m a rho0Const nu0Const 0.5 <
        HeymsfieldWestbrook2010core d m2 a rho0Const nu0Const 0.5 ∧
      KhvorostyanovCurry2005core d m a rho0Const nu0Const false <
        KhvorostyanovCurry2005core d m2 a rho0Const nu0Const false) ∧
    (Boehm1992 [d] [m] [a] rho0Const nu0Const 1 =
        [Boehm1992core d m a rho0Const nu0Const 1] ∧
      Boehm1989 [d] [m] [a] rho0Const nu0Const =
        [Boehm1989core d m a rho0Const nu0Const] ∧
      HeymsfieldWestbrook2010 [d] [m] [a] rho0Const nu0Const 0.5 =
        [HeymsfieldWestbrook2010core d m a rho0Const nu0Const 0.5] ∧
      KhvorostyanovCurry2005 [d] [m] [a] rho0Const nu0Const false =
        [KhvorostyanovCurry2005core d m a rho0Const nu0Const false]) :=
  ⟨⟨Boehm1992core_pos hd hm ha rho0Const_pos nu0Const_pos,
    Boehm1989core_pos hd hm ha rho0Const_pos nu0Const_pos,
    HeymsfieldWestbrook2010core_pos hd hm ha rho0Const_pos nu0Const_pos,
    KhvorostyanovCurry2005core_pos hd hm ha⟩,
   ⟨Boehm1992core_mono hd ha rho0Const_pos nu0Const_pos hm hmm,
    Boehm1989core_mono hd ha rho0Const_pos nu0Const_pos hm hmm,
    HeymsfieldWestbrook2010core_mono hd ha rho0Const_pos nu0Const_pos hm hmm,
    KhvorostyanovCurry2005core_mono hd ha hm hmm⟩,
   ⟨rfl, rfl, rfl, rfl⟩⟩

/-- C9 (witness), at diameter 1, area 1, masses 1 and 2. -/
theorem C9_witness :
    (0 < Boehm1992core 1 1 1 rho0Const nu0Const 1 ∧
      0 < Boehm1989core 1 1 1 rho0Const nu0Const ∧
      0 < HeymsfieldWestbrook2010core 1 1 1 rho0Const nu0Const 0.5 ∧
      0 < KhvorostyanovCurry2005core 1 1 1 rho0Const nu0Const false) ∧
    (Boehm1992core 1 1 1 rho0Const nu0Const 1 <
        Boehm1992core 1 2 1 rho0Const nu0Const 1 ∧
      Boehm1989core 1 1 1 rho0Const nu0Const <
        Boehm1989core 1 2 1 rho0Const nu0Const ∧
      HeymsfieldWestbrook2010core 1 1 1 rho0Const nu0Const 0.5 <
        HeymsfieldWestbrook2010core 1 2 1 rho0Const nu0Const 0.5 ∧
      KhvorostyanovCurry2005core 1 1 1 rho0Const nu0Const false <
        KhvorostyanovCurry2005core 1 2 1 rho0Const nu0Const false) ∧
    (Boehm1992 [1] [1] [1] rho0Const nu0Const 1 =
        [Boehm1992core 1 1 1 rho0Const nu0Const 1] ∧
      Boehm1989 [1] [1] [1] rho0Const nu0Const =
        [Boehm1989core 1 1 1 rho0Const nu0Const] ∧
      HeymsfieldWestbrook2010 [1] [1] [1] rho0Const nu0Const 0.5 =
        [HeymsfieldWestbrook2010core 1 1 1 rho0Const nu0Const 0.5] ∧
      KhvorostyanovCurry2005 [1] [1] [1] rho0Const nu0Const false =
        [KhvorostyanovCurry2005core 1 1 1 rho0Const nu0Const false]) :=
  C9_positive_and_mass_monotone 1 1 1 2 (by norm_num) (by norm_num)
    (by norm_num) (by norm_num)

/-- C10: a scalar diameter input behaves exactly as the length-1 array
input, for every public scattering operation, and a scalar optional
parameter is broadcast to length N. -/
theorem C10_scalar_array_equivalence (E : Externals) (dval : ℝ)
    (w : NpInput ℝ) (prop : String) (ri : Option (NpInput ℂ))
    (t : Option (NpInput ℝ)) (m : Option (NpInput ℝ)) (θ : ℝ) (n N : Nat)
    (c : ℝ) :
    calcProperties E (NpInput.scalar dval) w prop ri t m θ n =
      calcProperties E (NpInput.array [dval]) w prop ri t m θ n ∧
    backscatter E (NpInput.scalar dval) w prop ri t m θ =
      backscatter E (NpInput.array [dval]) w prop ri t m θ ∧
    backscatVel E (NpInput.scalar dval) w prop ri t m θ =
      backscatVel E (NpInput.array [dval]) w prop ri t m θ ∧
    snowMassVelocityArea E (NpInput.scalar dval) prop =
      snowMassVelocityArea E (NpInput.array [dval]) prop ∧
    broadcastTo (NpInput.scalar c) N = List.replicate N c :=
  ⟨rfl, rfl, rfl, rfl, rfl⟩

end SnowScatt

end
